import Mathlib

/-!
Verification of the fetch/normalize/classify pipeline of
src/extract_and_decompile_public_rpc.js (and the older variant of the same
normalizer kept in src/fetch_swap_transactions.js's companion file).

The JavaScript is embedded shallowly: provider-returned transaction payloads
become explicit Lean structures whose `Option` fields model absent (or falsy)
JavaScript properties, and each function of the source becomes a computable
Lean function with the same branch structure.  JavaScript truthiness is made
explicit where the source relies on it (empty strings are falsy, objects and
arrays are truthy, `x || d` takes `d` on falsy `x`).
-/

namespace SolTx

/-- Program id literal the source uses for the system program (the
`instr.program === 'system'` branch of `decompileToTS`). -/
def systemProgramId : String := "11111111111111111111111111111111"

/-- Program id literal of the SPL token program used by the classifier and
description branches. -/
def tokenProgramId : String := "TokenkegQfeZyiNwAJbNbGKPFXCWuBvf9Ss623VQ5DA"

/-- Program id literal of the compute-budget program: its
`setComputeUnitLimit` instruction is extracted into `computeBudget` and
excluded from the instruction list. -/
def computeBudgetProgramId : String := "ComputeBudget111111111111111111111111111111"

/-- The MEMO_PROGRAM_IDS set of src/extract_and_decompile_public_rpc.js. -/
def MEMO_PROGRAM_IDS : List String :=
  ["MemoSq4gqABAXKb96qnH8TysNcWxMyWCqXgDLGmfcHr",
   "Memo1UhkJBfCR961GD3xbN1T1YQC7kFpFHJBF7bxTpN"]

/-- Value a provider may supply for a public-key-like property: either a
structured key object exposing `toBase58`, or a plain value rendered with
`toString` (in practice a base58 string). -/
inductive JsKey
  | pubkey (s : String)
  | str (s : String)
deriving Repr, DecidableEq

/-- Rendering used throughout the source:
`typeof v.toBase58 === 'function' ? v.toBase58() : v.toString()`. -/
def JsKey.toKeyString : JsKey → String
  | .pubkey s => s
  | .str s => s

/-- JavaScript truthiness of a key value: an object is truthy, a string is
truthy iff it is nonempty. -/
def JsKey.truthy : JsKey → Bool
  | .pubkey _ => true
  | .str s => s != ""

/-- Truthiness of an optional key-valued property (absent = falsy). -/
def jsTruthyKey : Option JsKey → Bool
  | some k => k.truthy
  | none => false

/-- Truthiness of an optional string property (absent or empty = falsy). -/
def jsTruthyStr : Option String → Bool
  | some s => s != ""
  | none => false

/-- The fields of `instr.parsed.info` that `decompileToTS` reads: the numeric
description fields and the eleven semantically-named account fields. -/
structure ParsedInfo where
  units : Option Nat := none
  lamports : Option Nat := none
  amount : Option String := none
  mint : Option String := none
  source : Option String := none
  destination : Option String := none
  owner : Option String := none
  authority : Option String := none
  account : Option String := none
  tokenAccount : Option String := none
  multisigAuthority : Option String := none
  newAccount : Option String := none
  fromPubkey : Option String := none
  toPubkey : Option String := none
deriving Repr, DecidableEq

/-- The `instr.parsed` object of a pre-parsed instruction. -/
structure ParsedData where
  type : Option String := none
  info : Option ParsedInfo := none
deriving Repr, DecidableEq

/-- The `instr.data` payload: a (base58/base64) string or a Buffer, which the
source converts with `toString('base64')`. -/
inductive JsData
  | str (s : String)
  | buffer (base64 : String)
deriving Repr, DecidableEq

/-- One provider-returned instruction, covering both the pre-parsed shape
(`program`, `parsed`) and the raw index-based shape (`programIdIndex`,
`accounts`). -/
structure RawInstr where
  programId : Option JsKey := none
  program : Option String := none
  programIdIndex : Option Nat := none
  accounts : Option (List Nat) := none
  parsed : Option ParsedData := none
  data : Option JsData := none
deriving Repr, DecidableEq

/-- The raw message header carrying the positional account-role counts. -/
structure Header where
  numRequiredSignatures : Option Nat := none
  numReadonlySignedAccounts : Option Nat := none
  numReadonlyUnsignedAccounts : Option Nat := none
deriving Repr, DecidableEq

/-- A transaction message as the normalizer reads it. -/
structure Message where
  accountKeys : Option (List JsKey) := none
  instructions : Option (List RawInstr) := none
  header : Option Header := none
deriving Repr, DecidableEq

/-- The `parsed.transaction` object. -/
structure TxBody where
  message : Option Message := none
  instructions : Option (List RawInstr) := none
deriving Repr, DecidableEq

/-- A provider-returned transaction payload (`parsed` in the source); the
normalizer also accepts the payload itself playing the role of the message,
so the message-shaped fields are repeated at top level. -/
structure RawTx where
  transaction : Option TxBody := none
  message : Option Message := none
  accountKeys : Option (List JsKey) := none
  instructions : Option (List RawInstr) := none
  header : Option Header := none
deriving Repr, DecidableEq

/-- The payload viewed as a message, for the final fallback of
`parsed?.transaction?.message || parsed?.message || parsed`. -/
def RawTx.asMessage (p : RawTx) : Message :=
  ⟨p.accountKeys, p.instructions, p.header⟩

/-- Message resolution of `decompileToTS`:
`parsed?.transaction?.message || parsed?.message || parsed`. -/
def messageOf (p : RawTx) : Message :=
  match p.transaction.bind TxBody.message with
  | some m => m
  | none =>
    match p.message with
    | some m => m
    | none => p.asMessage

/-- Instruction-list resolution of `decompileToTS`:
`message?.instructions || parsed?.transaction?.instructions || []` (an array
is truthy even when empty, so a present empty list stops the fallback). -/
def instructionsOf (p : RawTx) : List RawInstr :=
  match (messageOf p).instructions with
  | some l => l
  | none =>
    match p.transaction.bind TxBody.instructions with
    | some l => l
    | none => []

/-- The first four program-id resolution branches, textually identical in both
variants of `decompileToTS`: structured key, string-typed key, the 'system'
marker, then the `programIdIndex` lookup (guarded by the indexed key being
present and truthy). -/
def resolveFirstFour (A : List JsKey) (i : RawInstr) : Option String :=
  if jsTruthyKey i.programId then Option.map JsKey.toKeyString i.programId
  else if i.program = some "system" then some systemProgramId
  else if jsTruthyKey (i.programIdIndex.bind A.get?) then
    Option.map JsKey.toKeyString (i.programIdIndex.bind A.get?)
  else none

/-- Program-id resolution of src/extract_and_decompile_public_rpc.js: after
the four shared branches it falls back to a truthy `instr.program` string and
otherwise skips the instruction (`continue`), reported here as `none`. -/
def resolveProgramId (A : List JsKey) (i : RawInstr) : Option String :=
  match resolveFirstFour A i with
  | some p => some p
  | none => if jsTruthyStr i.program then i.program else none

/-- Program-id resolution of the older variant (src/unnamed/part_000): the
final branch is `programId = instr.program || 'unknown'`, so it always
resolves and never skips an instruction. -/
def resolveProgramId_v0 (A : List JsKey) (i : RawInstr) : String :=
  match resolveFirstFour A i with
  | some p => p
  | none =>
    match i.program with
    | some s => if s = "" then "unknown" else s
    | none => "unknown"

/-- Signer/writable flags the current variant derives for account index
`accIdx` of the raw encoding: `isSigner ↔ accIdx < numRequiredSignatures` and
`isWritable ↔ accIdx < accountKeys.length - numReadonlySignedAccounts -
numReadonlyUnsignedAccounts` (computed over the integers, as in JavaScript;
`header.f || 0` defaults each count to 0). -/
def rawRoles (A : List JsKey) (hdr : Option Header) (accIdx : Nat) : Bool × Bool :=
  let h := hdr.getD {}
  let numSigners := h.numRequiredSignatures.getD 0
  let numWritable : Int :=
    (A.length : Int) - (h.numReadonlySignedAccounts.getD 0 : Int)
      - (h.numReadonlyUnsignedAccounts.getD 0 : Int)
  (decide (accIdx < numSigners), decide ((accIdx : Int) < numWritable))

/-- Signer/writable flags of the older variant: its writable threshold is
`numSigners + (accountKeys.length - roSigned - roUnsigned)`. -/
def rawRoles_v0 (A : List JsKey) (hdr : Option Header) (accIdx : Nat) : Bool × Bool :=
  let h := hdr.getD {}
  let numSigners := h.numRequiredSignatures.getD 0
  let numWritable : Int :=
    (numSigners : Int) +
      ((A.length : Int) - (h.numReadonlySignedAccounts.getD 0 : Int)
        - (h.numReadonlyUnsignedAccounts.getD 0 : Int))
  (decide (accIdx < numSigners), decide ((accIdx : Int) < numWritable))

/-- One canonical account reference: `{pubkey, isSigner, isWritable}`. -/
structure KeyMeta where
  pubkey : String
  isSigner : Bool
  isWritable : Bool
deriving Repr, DecidableEq

/-- One canonical instruction as `decompileToTS` accumulates it. -/
structure DetailedInstr where
  programId : String
  description : String
  keys : List KeyMeta
  data : String
deriving Repr, DecidableEq

/-- JavaScript `Set.add` on a set kept in insertion order. -/
def addUnique (u : List String) (s : String) : List String :=
  if s ∈ u then u else u ++ [s]

/-- Key extraction for the raw (index-based) encoding: walk
`instr.accounts`, keep indices whose account key exists and is truthy, add
each rendered key to the unique-accounts set and record the role flags
`roleOf accIdx` gives. Returns the keys pushed and the grown set. -/
def buildKeysFromIndices (A : List JsKey) (roleOf : Nat → Bool × Bool) :
    List Nat → List String → List KeyMeta × List String
  | [], u => ([], u)
  | a :: rest, u =>
    match A.get? a with
    | none => buildKeysFromIndices A roleOf rest u
    | some pk =>
      if pk.truthy then
        let r := buildKeysFromIndices A roleOf rest (addUnique u pk.toKeyString)
        (⟨pk.toKeyString, (roleOf a).1, (roleOf a).2⟩ :: r.1, r.2)
      else buildKeysFromIndices A roleOf rest u

/-- The `accountFields` table of `decompileToTS`: field accessor, isSigner,
isWritable — in source order. -/
def accountFields : List ((ParsedInfo → Option String) × Bool × Bool) :=
  [(ParsedInfo.source, true, true),
   (ParsedInfo.destination, false, true),
   (ParsedInfo.owner, true, false),
   (ParsedInfo.authority, true, false),
   (ParsedInfo.mint, false, true),
   (ParsedInfo.account, false, true),
   (ParsedInfo.tokenAccount, false, true),
   (ParsedInfo.multisigAuthority, false, false),
   (ParsedInfo.newAccount, false, true),
   (ParsedInfo.fromPubkey, true, true),
   (ParsedInfo.toPubkey, false, true)]

/-- Key extraction for the pre-parsed encoding: for each entry of the
`accountFields` table whose field holds a truthy string, add it to the
unique-accounts set and push it with the table's fixed flags. -/
def buildParsedKeys (info : ParsedInfo) :
    List ((ParsedInfo → Option String) × Bool × Bool) → List String →
      List KeyMeta × List String
  | [], u => ([], u)
  | (f, sg, wr) :: rest, u =>
    match f info with
    | none => buildParsedKeys info rest u
    | some s =>
      if s = "" then buildParsedKeys info rest u
      else
        let r := buildParsedKeys info rest (addUnique u s)
        (⟨s, sg, wr⟩ :: r.1, r.2)

/-- Key extraction dispatch of `decompileToTS`: the raw branch when
`instr.accounts` is an array, else the pre-parsed branch when
`instr.parsed?.info` exists, else no keys. -/
def instrKeys (A : List JsKey) (roleOf : Nat → Bool × Bool) (i : RawInstr)
    (u : List String) : List KeyMeta × List String :=
  match i.accounts with
  | some idxs => buildKeysFromIndices A roleOf idxs u
  | none =>
    match i.parsed with
    | some pr =>
      match pr.info with
      | some info => buildParsedKeys info accountFields u
      | none => ([], u)
    | none => ([], u)

/-- Description of a pre-parsed instruction: the decoded type name (or
'parsed instruction') augmented with truthy lamports/amount/mint fields. -/
def parsedDescription (pr : ParsedData) : String :=
  let base :=
    match pr.type with
    | some t => if t = "" then "parsed instruction" else t
    | none => "parsed instruction"
  match pr.info with
  | none => base
  | some info =>
    let d1 :=
      match info.lamports with
      | some n => if n = 0 then base else base ++ " (" ++ toString n ++ " lamports)"
      | none => base
    let d2 :=
      match info.amount with
      | some a => if a = "" then d1 else d1 ++ " (amount: " ++ a ++ ")"
      | none => d1
    match info.mint with
    | some m => if m = "" then d2 else d2 ++ " (mint: " ++ m.take 8 ++ "...)"
    | none => d2

/-- Description derivation of the current variant; memo detection is
membership in the fixed MEMO_PROGRAM_IDS set. -/
def describeInstr (pid : String) (i : RawInstr) : String :=
  match i.parsed with
  | some pr => parsedDescription pr
  | none =>
    if pid ∈ MEMO_PROGRAM_IDS then "Memo"
    else if pid = systemProgramId then "System instruction"
    else if pid = tokenProgramId then "SPL Token instruction"
    else "Program " ++ pid.take 8 ++ "... instruction"

/-- JavaScript `s.includes('Memo')`, used by the older variant. -/
def hasMemoSubstring (s : String) : Bool := (s.splitOn "Memo").length > 1

/-- Description derivation of the older variant; memo detection is the
substring test `programId.includes('Memo')`. -/
def describeInstr_v0 (pid : String) (i : RawInstr) : String :=
  match i.parsed with
  | some pr => parsedDescription pr
  | none =>
    if hasMemoSubstring pid then "Memo"
    else if pid = systemProgramId then "System instruction"
    else if pid = tokenProgramId then "SPL Token instruction"
    else "Program " ++ pid.take 8 ++ "... instruction"

/-- Compute-budget extraction: on a `setComputeUnitLimit` parsed type the
directive becomes `instr.parsed.info?.units || 200000`; otherwise the stored
value is kept. -/
def updateComputeBudget (i : RawInstr) (old : Option Nat) : Option Nat :=
  match i.parsed with
  | some pr =>
    if pr.type = some "setComputeUnitLimit" then
      some
        (match pr.info with
         | some info =>
           match info.units with
           | some u => if u = 0 then 200000 else u
           | none => 200000
         | none => 200000)
    else old
  | none => old

/-- Data extraction: a string is kept verbatim, a Buffer is base64-rendered,
anything else gives the empty string. -/
def dataOf : Option JsData → String
  | some (.str s) => s
  | some (.buffer b) => b
  | none => ""

/-- Accumulator of the instruction loop of `decompileToTS`. -/
structure NormState where
  instrs : List DetailedInstr
  unique : List String
  computeBudget : Option Nat
deriving Repr, DecidableEq

/-- One iteration of the instruction loop of the current variant: skip on an
unresolvable program id; always add the resolved id to the unique-accounts
set; divert a compute-budget instruction into `computeBudget`; otherwise
append the canonical instruction built from description, keys and data. -/
def processInstr (A : List JsKey) (hdr : Option Header) (st : NormState)
    (i : RawInstr) : NormState :=
  match resolveProgramId A i with
  | none => st
  | some pid =>
    let u0 := addUnique st.unique pid
    if pid = computeBudgetProgramId then
      ⟨st.instrs, u0, updateComputeBudget i st.computeBudget⟩
    else
      let kp := instrKeys A (rawRoles A hdr) i u0
      ⟨st.instrs ++ [⟨pid, describeInstr pid i, kp.1, dataOf i.data⟩], kp.2,
        st.computeBudget⟩

/-- One iteration of the instruction loop of the older variant: never skips
(the program id always resolves, possibly to 'unknown'), and uses the older
role derivation and memo test. -/
def processInstr_v0 (A : List JsKey) (hdr : Option Header) (st : NormState)
    (i : RawInstr) : NormState :=
  let pid := resolveProgramId_v0 A i
  let u0 := addUnique st.unique pid
  if pid = computeBudgetProgramId then
    ⟨st.instrs, u0, updateComputeBudget i st.computeBudget⟩
  else
    let kp := instrKeys A (rawRoles_v0 A hdr) i u0
    ⟨st.instrs ++ [⟨pid, describeInstr_v0 pid i, kp.1, dataOf i.data⟩], kp.2,
      st.computeBudget⟩

/-- Classification of the current variant: exactly one instruction is tagged
by its program id, several give `multi-<count>`, and the initial 'complex'
survives when the canonical list is empty. -/
def kindOf (l : List DetailedInstr) : String :=
  match l with
  | [d] =>
    if d.programId = systemProgramId then "system"
    else if d.programId = tokenProgramId then "spl-token"
    else if d.programId ∈ MEMO_PROGRAM_IDS then "memo"
    else "program"
  | [] => "complex"
  | _ => "multi-" ++ toString l.length

/-- Classification of the older variant (memo by substring). -/
def kindOf_v0 (l : List DetailedInstr) : String :=
  match l with
  | [d] =>
    if d.programId = systemProgramId then "system"
    else if d.programId = tokenProgramId then "spl-token"
    else if hasMemoSubstring d.programId then "memo"
    else "program"
  | [] => "complex"
  | _ => "multi-" ++ toString l.length

/-- The canonical transaction `decompileToTS` derives before rendering:
ordered instruction list, unique-accounts set (in insertion order), optional
compute directive, and the classification tag. Rendering the canonical model
to TypeScript text is out of the verified core. -/
structure Canonical where
  sig : String
  instructions : List DetailedInstr
  uniqueAccounts : List String
  computeBudget : Option Nat
  kind : String
deriving Repr, DecidableEq

/-- The instruction loop of the current variant run from the empty state. -/
def foldState (p : RawTx) : NormState :=
  (instructionsOf p).foldl
    (processInstr ((messageOf p).accountKeys.getD []) (messageOf p).header)
    ⟨[], [], none⟩

/-- The instruction loop of the older variant run from the empty state. -/
def foldState_v0 (p : RawTx) : NormState :=
  (instructionsOf p).foldl
    (processInstr_v0 ((messageOf p).accountKeys.getD []) (messageOf p).header)
    ⟨[], [], none⟩

/-- The normalizer of src/extract_and_decompile_public_rpc.js: null exactly
when the resolved raw instruction list is empty, otherwise the canonical
transaction assembled from the loop state. -/
def decompileToTS (sig : String) (p : RawTx) : Option Canonical :=
  match instructionsOf p with
  | [] => none
  | _ =>
    let st := foldState p
    some ⟨sig, st.instrs, st.unique, st.computeBudget, kindOf st.instrs⟩

/-- The normalizer of the older variant. -/
def decompileToTS_v0 (sig : String) (p : RawTx) : Option Canonical :=
  match instructionsOf p with
  | [] => none
  | _ =>
    let st := foldState_v0 p
    some ⟨sig, st.instrs, st.unique, st.computeBudget, kindOf_v0 st.instrs⟩

/-- All addresses appearing in a canonical instruction list, as a program id
or as an account reference. -/
def instrAddresses (l : List DetailedInstr) : List String :=
  l.flatMap fun d => d.programId :: d.keys.map KeyMeta.pubkey

/-! Fetch client: retry bounds, the two backoff schedules of `fetchParsedTx`
(line 100 and line 105 of the source), and the retry loop with the network
modelled as an oracle giving each attempt's outcome. -/

/-- Default retry budget (`MAX_RETRIES`, env default '5'). -/
def MAX_RETRIES : Nat := 5

/-- Base backoff (`BASE_BACKOFF_MS = 1000`). -/
def BASE_BACKOFF_MS : Nat := 1000

/-- Deterministic backoff applied after a rate-limited (429 / Too Many
Requests) failure at a given attempt: `BASE_BACKOFF_MS * Math.pow(3, attempt)`. -/
def rateLimitedBackoff (attempt : Nat) : Nat := BASE_BACKOFF_MS * 3 ^ attempt

/-- Deterministic backoff applied after any other failure, and after an
empty double response: `BASE_BACKOFF_MS * Math.pow(2, attempt)`. -/
def otherBackoff (attempt : Nat) : Nat := BASE_BACKOFF_MS * 2 ^ attempt

/-- Outcome of one attempt of the fetch loop: the pre-parsed request returned
a transaction; it was empty but the raw request returned one; both were
empty; or a request threw (during the first or the second call), classified
by whether the provider signalled rate limiting. -/
inductive AttemptOutcome
  | parsedOk (r : RawTx)
  | rawOk (r : RawTx)
  | bothEmpty
  | errFirst (is429 : Bool)
  | errSecond (is429 : Bool)
deriving Repr, DecidableEq

/-- Observable result of `fetchParsedTx`: the value returned (`none` models
the exhausted-retries throw), how many endpoints were taken from the pool,
how many RPC requests were issued, and the total backoff slept. -/
structure FetchResult where
  value : Option RawTx
  poolRequests : Nat
  rpcRequests : Nat
  delayMs : Nat
deriving Repr, DecidableEq

/-- RPC requests one attempt issues under each outcome. -/
def attemptRpcRequests : AttemptOutcome → Nat
  | .parsedOk _ => 1
  | .rawOk _ => 2
  | .bothEmpty => 2
  | .errFirst _ => 1
  | .errSecond _ => 2

/-- Deterministic part of the backoff one continuing attempt sleeps: the
steeper schedule exactly for rate-limited errors. -/
def attemptBackoff (o : AttemptOutcome) (attempt : Nat) : Nat :=
  match o with
  | .bothEmpty => otherBackoff attempt
  | .errFirst is429 => if is429 then rateLimitedBackoff attempt else otherBackoff attempt
  | .errSecond is429 => if is429 then rateLimitedBackoff attempt else otherBackoff attempt
  | _ => 0

/-- The retry loop of `fetchParsedTx`, fuelled by the remaining attempts;
`jitter` models the sampled `Math.random()*k` addend of each sleep. -/
def fetchLoop (net : Nat → AttemptOutcome) (jitter : Nat → Nat) (attempt : Nat) :
    Nat → FetchResult
  | 0 => ⟨none, 0, 0, 0⟩
  | fuel + 1 =>
    let o := net attempt
    match o with
    | .parsedOk r => ⟨some r, 1, 1, 0⟩
    | .rawOk r => ⟨some r, 1, 2, 0⟩
    | _ =>
      let rest := fetchLoop net jitter (attempt + 1) fuel
      ⟨rest.value, rest.poolRequests + 1, rest.rpcRequests + attemptRpcRequests o,
        rest.delayMs + attemptBackoff o attempt + jitter attempt⟩

/-- The fetch client: a cached identifier is returned at once (no endpoint
taken, no request, no sleep); otherwise the retry loop runs attempts 1
through `MAX_RETRIES`. The write-through of a fetched result into the cache
is a side effect outside this observable summary. -/
def fetchParsedTx (cache : String → Option RawTx) (net : Nat → AttemptOutcome)
    (jitter : Nat → Nat) (sig : String) : FetchResult :=
  match cache sig with
  | some r => ⟨some r, 0, 0, 0⟩
  | none => fetchLoop net jitter 1 MAX_RETRIES

/-! Batch orchestrator: the resume step of `run`. -/

/-- The orchestrator's fatal startup failure. -/
inductive RunError
  | StartSignatureNotFound
deriving Repr, DecidableEq

/-- The resume step of `run`: with no resume point the whole identifier list
is processed; with one, `indexOf` locates it (error and abort before any work
when absent) and processing starts at its index (`allSigs.slice(startIndex)`). -/
def resumeSigs (allSigs : List String) (startFrom : Option String) :
    Except RunError (List String) :=
  match startFrom with
  | none => .ok allSigs
  | some s =>
    match allSigs.findIdx? (fun x => x == s) with
    | none => .error RunError.StartSignatureNotFound
    | some i => .ok (allSigs.drop i)

/-- Identifiers the run processes, in order: none at all when the resume
point is absent (the process exits before the processing loop starts). -/
def processedIds (allSigs : List String) (startFrom : Option String) : List String :=
  match resumeSigs allSigs startFrom with
  | .ok l => l
  | .error _ => []

/-! Environment model for the determinism hyperproperty: the sources of
nondeterminism the process has (wall clock, random jitter). `decompileToTS`
reads neither — it is a pure function of the payload — which the
environment-passing wrapper makes explicit. -/

/-- Ambient nondeterminism available to the process. -/
structure Env where
  nowMs : Nat
  random : Nat → Nat

/-- The normalizer run in an environment: the source consults neither the
clock nor the random generator nor any mutable state, so the environment is
ignored. -/
def decompileInEnv (_e : Env) (sig : String) (p : RawTx) : Option Canonical :=
  decompileToTS sig p

/-! Concrete inputs the counterexamples, code-bug evaluations and witnesses
use. Each is a literal provider payload written in the embedded shape. -/

/-- Five account keys, for the literal header example of the spec. -/
def exKeys5 : List JsKey := [.str "k0", .str "k1", .str "k2", .str "k3", .str "k4"]

/-- The literal header of the spec's example: numRequiredSignatures=2,
numReadonlySignedAccounts=1, numReadonlyUnsignedAccounts=1. -/
def exHeader211 : Header :=
  { numRequiredSignatures := some 2, numReadonlySignedAccounts := some 1,
    numReadonlyUnsignedAccounts := some 1 }

/-- Raw-encoded transaction over the 5-entry key list with the 2/1/1 header,
whose single instruction references every account index. -/
def exTxC1 : RawTx :=
  { accountKeys := some exKeys5, header := some exHeader211,
    instructions := some
      [{ programId := some (.str "ProgAAAA"), accounts := some [0, 1, 2, 3, 4] }] }

/-- Transaction with a compute-budget directive followed by a parsed system
transfer. -/
def exTxC2 : RawTx :=
  { instructions := some
      [{ programId := some (.str computeBudgetProgramId),
         parsed := some { type := some "setComputeUnitLimit",
                          info := some { units := some 300000 } } },
       { program := some "system",
         parsed := some { type := some "transfer",
                          info := some { lamports := some 5,
                                         fromPubkey := some "Alice",
                                         toPubkey := some "Bob" } } }] }

/-- Transaction whose only instruction is a compute-budget directive. -/
def exTxC3 : RawTx :=
  { instructions := some
      [{ programId := some (.str computeBudgetProgramId),
         parsed := some { type := some "setComputeUnitLimit",
                          info := some { units := some 250000 } } }] }

/-- Instruction carrying only a generic string program tag (no structured or
string-typed program key, no index). -/
def exInstrTagOnly : RawInstr := { program := some "spl-token" }

/-- Instruction carrying both a generic string program tag and an account-key
index. -/
def exInstrTagAndIndex : RawInstr :=
  { program := some "spl-token", programIdIndex := some 0 }

/-- One-key account list for the resolution counterexample. -/
def exKeysFoo : List JsKey := [.str "FooProgram11111111111111111111111111111111"]

/-- Transaction whose single instruction only carries the generic tag. -/
def exTxC4 : RawTx := { instructions := some [exInstrTagOnly] }

/-- Transaction whose single instruction's program id is the SPL token
program. -/
def exTxC5 : RawTx :=
  { instructions := some [{ programId := some (.str tokenProgramId) }] }

/-- Transaction whose single raw instruction references account index 3 under
the 2/1/1 header: the two normalizer variants disagree on its writability. -/
def exTxC10a : RawTx :=
  { accountKeys := some exKeys5, header := some exHeader211,
    instructions := some
      [{ programId := some (.str "ProgAAAA"), accounts := some [3] }] }

/-- Transaction whose single instruction resolves through no strategy: the
current variant drops it, the older variant keeps it as 'unknown'. -/
def exTxC10b : RawTx := { instructions := some [{}] }

/-- A one-entry cache used by the fetch witnesses. -/
def exCache : String → Option RawTx :=
  fun s => if s = "sigX" then some exTxC5 else none

/-- The canonical transaction `decompileToTS` produces for `exTxC2`, written
out for the witness of the unique-accounts invariant. -/
def exCanonC2 : Canonical :=
  ⟨"s",
   [⟨systemProgramId, "transfer (5 lamports)",
     [⟨"Alice", true, true⟩, ⟨"Bob", false, true⟩], ""⟩],
   [computeBudgetProgramId, systemProgramId, "Alice", "Bob"],
   some 300000, "system"⟩

/-- The spec's classification vocabulary, with the code's literal spellings:
the token tag is spelled 'spl-token' by the classifier and `multi-N` carries
the instruction count N ≥ 2. -/
def inTagVocabulary (s : String) : Prop :=
  s = "system" ∨ s = "spl-token" ∨ s = "memo" ∨ s = "program" ∨ s = "complex" ∨
    s = "unrecognized" ∨ ∃ n : Nat, 2 ≤ n ∧ s = "multi-" ++ toString n

/-- Writable flags of a canonical transaction, instruction by instruction. -/
def writableMatrix (c : Canonical) : List (List Bool) :=
  c.instructions.map fun d => d.keys.map KeyMeta.isWritable

/-- Program ids of a canonical transaction's instructions, in order. -/
def programIdList (c : Canonical) : List String :=
  c.instructions.map DetailedInstr.programId

/-! Helper lemmas about the set kept in insertion order, the key builders and
the loop state. -/

theorem mem_addUnique {u : List String} {t s : String} :
    s ∈ addUnique u t ↔ s ∈ u ∨ s = t := by
  unfold addUnique
  by_cases h : t ∈ u
  · simp only [if_pos h]
    constructor
    · exact Or.inl
    · rintro (hs | rfl)
      · exact hs
      · exact h
  · simp [if_neg h]

theorem instrAddresses_append (l1 l2 : List DetailedInstr) :
    instrAddresses (l1 ++ l2) = instrAddresses l1 ++ instrAddresses l2 := by
  simp [instrAddresses]

theorem buildKeysFromIndices_unique (A : List JsKey) (roleOf : Nat → Bool × Bool)
    (idxs : List Nat) :
    ∀ (u : List String) (s : String),
      s ∈ (buildKeysFromIndices A roleOf idxs u).2 ↔
        s ∈ u ∨ s ∈ (buildKeysFromIndices A roleOf idxs u).1.map KeyMeta.pubkey := by
  induction idxs with
  | nil => intro u s; simp [buildKeysFromIndices]
  | cons a rest ih =>
    intro u s
    cases hA : A.get? a with
    | none =>
      simp only [buildKeysFromIndices, hA]
      exact ih u s
    | some pk =>
      by_cases ht : pk.truthy
      · simp only [buildKeysFromIndices, hA, if_pos ht, List.map_cons, List.mem_cons]
        rw [ih (addUnique u pk.toKeyString) s, mem_addUnique]
        tauto
      · simp only [buildKeysFromIndices, hA, if_neg ht]
        exact ih u s

theorem buildParsedKeys_unique (info : ParsedInfo) :
    ∀ (fs : List ((ParsedInfo → Option String) × Bool × Bool))
      (u : List String) (s : String),
      s ∈ (buildParsedKeys info fs u).2 ↔
        s ∈ u ∨ s ∈ (buildParsedKeys info fs u).1.map KeyMeta.pubkey := by
  intro fs
  induction fs with
  | nil => intro u s; simp [buildParsedKeys]
  | cons e rest ih =>
    intro u s
    obtain ⟨f, sg, wr⟩ := e
    cases hf : f info with
    | none =>
      simp only [buildParsedKeys, hf]
      exact ih u s
    | some v =>
      by_cases hv : v = ""
      · simp only [buildParsedKeys, hf, if_pos hv]
        exact ih u s
      · simp only [buildParsedKeys, hf, if_neg hv, List.map_cons, List.mem_cons]
        rw [ih (addUnique u v) s, mem_addUnique]
        tauto

theorem instrKeys_unique (A : List JsKey) (roleOf : Nat → Bool × Bool)
    (i : RawInstr) (u : List String) (s : String) :
    s ∈ (instrKeys A roleOf i u).2 ↔
      s ∈ u ∨ s ∈ (instrKeys A roleOf i u).1.map KeyMeta.pubkey := by
  cases hacc : i.accounts with
  | some idxs =>
    simp only [instrKeys, hacc]
    exact buildKeysFromIndices_unique A roleOf idxs u s
  | none =>
    cases hp : i.parsed with
    | none => simp [instrKeys, hacc, hp]
    | some pr =>
      cases hi : pr.info with
      | none => simp [instrKeys, hacc, hp, hi]
      | some info =>
        simp only [instrKeys, hacc, hp, hi]
        exact buildParsedKeys_unique info accountFields u s

theorem foldl_preserves {α β : Type} (f : β → α → β) (P : β → Prop)
    (hf : ∀ b a, P b → P (f b a)) :
    ∀ (l : List α) (b : β), P b → P (l.foldl f b) := by
  intro l
  induction l with
  | nil => intro b h; exact h
  | cons a rest ih => intro b h; exact ih (f b a) (hf b a h)

theorem decompileToTS_some_eq {sig : String} {p : RawTx} {c : Canonical}
    (h : decompileToTS sig p = some c) :
    c = ⟨sig, (foldState p).instrs, (foldState p).unique,
      (foldState p).computeBudget, kindOf (foldState p).instrs⟩ := by
  unfold decompileToTS at h
  split at h
  · exact Option.noConfusion h
  · exact (Option.some.inj h).symm

theorem processInstr_covers (A : List JsKey) (hdr : Option Header)
    (st : NormState) (i : RawInstr)
    (hcov : ∀ s ∈ instrAddresses st.instrs, s ∈ st.unique) :
    ∀ s ∈ instrAddresses (processInstr A hdr st i).instrs,
      s ∈ (processInstr A hdr st i).unique := by
  unfold processInstr
  cases hres : resolveProgramId A i with
  | none => exact hcov
  | some pid =>
    by_cases hcb : pid = computeBudgetProgramId
    · simp only [if_pos hcb]
      intro s hs
      exact mem_addUnique.mpr (Or.inl (hcov s hs))
    · simp only [if_neg hcb]
      intro s hs
      rw [instrAddresses_append] at hs
      rcases List.mem_append.mp hs with h1 | h1
      · exact (instrKeys_unique A (rawRoles A hdr) i (addUnique st.unique pid) s).mpr
          (Or.inl (mem_addUnique.mpr (Or.inl (hcov s h1))))
      · simp only [instrAddresses, List.flatMap_cons, List.flatMap_nil,
          List.append_nil, List.mem_cons] at h1
        rcases h1 with rfl | h1
        · exact (instrKeys_unique A (rawRoles A hdr) i (addUnique st.unique s) s).mpr
            (Or.inl (mem_addUnique.mpr (Or.inr rfl)))
        · exact (instrKeys_unique A (rawRoles A hdr) i (addUnique st.unique pid) s).mpr
            (Or.inr h1)

theorem processInstr_only (A : List JsKey) (hdr : Option Header)
    (st : NormState) (i : RawInstr)
    (hpure : ∀ s ∈ st.unique,
      s ∈ instrAddresses st.instrs ∨ s = computeBudgetProgramId) :
    ∀ s ∈ (processInstr A hdr st i).unique,
      s ∈ instrAddresses (processInstr A hdr st i).instrs ∨
        s = computeBudgetProgramId := by
  unfold processInstr
  cases hres : resolveProgramId A i with
  | none => exact hpure
  | some pid =>
    by_cases hcb : pid = computeBudgetProgramId
    · simp only [if_pos hcb]
      intro s hs
      rcases mem_addUnique.mp hs with h | h
      · exact hpure s h
      · exact Or.inr (h.trans hcb)
    · simp only [if_neg hcb]
      intro s hs
      rcases (instrKeys_unique A (rawRoles A hdr) i (addUnique st.unique pid) s).mp hs
        with h | h
      · rcases mem_addUnique.mp h with h1 | h1
        · rcases hpure s h1 with h2 | h2
          · exact Or.inl (by rw [instrAddresses_append]; exact List.mem_append_left _ h2)
          · exact Or.inr h2
        · subst h1
          refine Or.inl ?_
          rw [instrAddresses_append]
          refine List.mem_append_right _ ?_
          simp [instrAddresses]
      · refine Or.inl ?_
        rw [instrAddresses_append]
        refine List.mem_append_right _ ?_
        simp only [instrAddresses, List.flatMap_cons, List.flatMap_nil,
          List.append_nil, List.mem_cons]
        exact Or.inr h

theorem kindOf_inTagVocabulary (l : List DetailedInstr) :
    inTagVocabulary (kindOf l) := by
  rcases l with _ | ⟨d, _ | ⟨e, rest⟩⟩
  · simp [kindOf, inTagVocabulary]
  · simp only [kindOf]
    split_ifs <;> simp [inTagVocabulary]
  · refine Or.inr (Or.inr (Or.inr (Or.inr (Or.inr (Or.inr
      ⟨rest.length + 2, by omega, ?_⟩)))))
    rfl

/-! The claims. -/

/-- C1: evaluation of the normalizer at the spec's literal example — a raw
transaction whose header has numRequiredSignatures=2,
numReadonlySignedAccounts=1, numReadonlyUnsignedAccounts=1 over a 5-entry
account-key list, its single instruction referencing indices 0..4. The code
marks indices {0,1} as signers, as claimed, but marks {0,1,2} — not the
claimed {0,2,3} — as writable: its writable test is the prefix test
`accIdx < accountKeys.length - roSigned - roUnsigned`, which mis-tags the
read-only signed account (index 1) as writable and the writable unsigned
account (index 3) as read-only. -/
theorem c1_code_behavior :
    ∃ c, decompileToTS "s" exTxC1 = some c ∧
      c.instructions.map (fun d => d.keys.map fun k => (k.isSigner, k.isWritable)) =
        [[(true, true), (true, true), (false, true), (false, false), (false, false)]] ∧
      [[(true, true), (true, true), (false, true), (false, false), (false, false)]] ≠
        [[(true, true), (true, false), (false, true), (false, true), (false, false)]] := by
  refine ⟨_, rfl, by decide, by decide⟩

/-- C2 counterexample: on a transaction holding a compute-budget directive
and a system transfer, the compute-budget program id is inserted into
`uniqueAccounts` although the directive is excluded from `instructions`, so
it appears in no instruction's programId or account list — the claimed set
equality fails. -/
theorem c2_counterexample :
    ∃ c, decompileToTS "s" exTxC2 = some c ∧
      computeBudgetProgramId ∈ c.uniqueAccounts ∧
      computeBudgetProgramId ∉ instrAddresses c.instructions := by
  refine ⟨_, rfl, by decide, by decide⟩

/-- C2 amended: `uniqueAccounts` contains every address appearing as a
programId or account reference across `instructions`, and conversely every
element of `uniqueAccounts` is such an address or the compute-budget program
id (whose instructions are diverted out of the instruction list after their
id is added to the set). -/
theorem c2_amended (sig : String) (p : RawTx) (c : Canonical)
    (h : decompileToTS sig p = some c) :
    (∀ s ∈ instrAddresses c.instructions, s ∈ c.uniqueAccounts) ∧
      ∀ s ∈ c.uniqueAccounts,
        s ∈ instrAddresses c.instructions ∨ s = computeBudgetProgramId := by
  rw [decompileToTS_some_eq h]
  unfold foldState
  constructor
  · exact foldl_preserves
      (processInstr ((messageOf p).accountKeys.getD []) (messageOf p).header)
      (fun st => ∀ s ∈ instrAddresses st.instrs, s ∈ st.unique)
      (fun st i hst => processInstr_covers _ _ st i hst)
      (instructionsOf p) ⟨[], [], none⟩
      (fun s hs => absurd hs (by simp [instrAddresses]))
  · exact foldl_preserves
      (processInstr ((messageOf p).accountKeys.getD []) (messageOf p).header)
      (fun st => ∀ s ∈ st.unique,
        s ∈ instrAddresses st.instrs ∨ s = computeBudgetProgramId)
      (fun st i hst => processInstr_only _ _ st i hst)
      (instructionsOf p) ⟨[], [], none⟩
      (fun s hs => absurd hs (by simp))

/-- C2 witness: the invariant applied to the concrete transaction `exTxC2`,
whose canonical form is `exCanonC2`: the transfer's source account appears in
`uniqueAccounts`. -/
theorem c2_amended_witness : "Alice" ∈ exCanonC2.uniqueAccounts :=
  (c2_amended "s" exTxC2 exCanonC2 rfl).1 "Alice" (by decide)

/-- C3 counterexample: for a transaction whose only instruction is a
compute-budget directive, `decompileToTS` does not return null — it returns a
canonical transaction with an empty instruction list (classified 'complex'),
so the classifier's empty case is reachable, contradicting the claim. -/
theorem c3_counterexample :
    ∃ c, decompileToTS "s" exTxC3 = some c ∧ c.instructions = [] ∧
      c.kind = "complex" ∧ c.computeBudget = some 250000 := by
  exact ⟨_, rfl, rfl, rfl, rfl⟩

/-- C3 amended: the normalizer returns null exactly when the raw
instruction list resolved from the payload is empty; the canonical
instruction list it returns may nevertheless be empty (for instance when the
only instruction is a compute-budget directive), in which case the
classification is 'complex'. -/
theorem c3_amended :
    (∀ (sig : String) (p : RawTx),
        decompileToTS sig p = none ↔ instructionsOf p = []) ∧
      ∃ c, decompileToTS "s" exTxC3 = some c ∧ c.instructions = [] ∧
        c.kind = "complex" := by
  constructor
  · intro sig p
    cases h : instructionsOf p with
    | nil => simp [decompileToTS, h]
    | cons a l => simp [decompileToTS, h]
  · exact ⟨_, rfl, rfl, rfl⟩

/-- C4 counterexample: an instruction carrying only a generic string program
tag resolves under the claimed five-strategy chain (whose strategies are the
shared first four, then skip) to nothing, yet the code resolves it to the tag
and keeps it — the code's chain has a sixth branch the claim omits.
Moreover, for an instruction carrying both the generic tag and an
account-key index, the index (strategy 4) wins over the tag, not the other
way round. -/
theorem c4_counterexample :
    resolveProgramId [] exInstrTagOnly = some "spl-token" ∧
      resolveFirstFour [] exInstrTagOnly = none ∧
      resolveProgramId [] exInstrTagOnly ≠ resolveFirstFour [] exInstrTagOnly ∧
      resolveProgramId exKeysFoo exInstrTagAndIndex =
        some "FooProgram11111111111111111111111111111111" ∧
      ∃ c, decompileToTS "s" exTxC4 = some c ∧
        c.instructions.map DetailedInstr.programId = ["spl-token"] := by
  refine ⟨rfl, rfl, by decide, rfl, ⟨_, rfl, rfl⟩⟩

/-- C4 amended: per-instruction program-id resolution is a six-branch
priority chain with first match winning — (1) a truthy structured or (2)
string-typed program key, (3) the system literal on the 'system' marker, (4)
the account-key index when it lands on a truthy key, (5) a truthy generic
string program tag, and (6) otherwise the instruction is skipped. In
particular a string-typed program key beats the index, but the generic
program tag loses to the index. -/
theorem c4_amended :
    ∀ (A : List JsKey) (i : RawInstr),
      (∀ k, i.programId = some k → k.truthy = true →
        resolveProgramId A i = some k.toKeyString) ∧
      (jsTruthyKey i.programId = false → i.program = some "system" →
        resolveProgramId A i = some systemProgramId) ∧
      (∀ k, jsTruthyKey i.programId = false → i.program ≠ some "system" →
        i.programIdIndex.bind A.get? = some k → k.truthy = true →
        resolveProgramId A i = some k.toKeyString) ∧
      (resolveFirstFour A i = none → ∀ t, i.program = some t → t ≠ "" →
        resolveProgramId A i = some t) ∧
      (resolveFirstFour A i = none → jsTruthyStr i.program = false →
        resolveProgramId A i = none) := by
  intro A i
  refine ⟨?_, ?_, ?_, ?_, ?_⟩
  · intro k hk htr
    simp [resolveProgramId, resolveFirstFour, hk, jsTruthyKey, htr]
  · intro h1 h2
    simp [resolveProgramId, resolveFirstFour, h1, h2]
  · intro k h1 h2 hb htr
    have hk : jsTruthyKey (i.programIdIndex.bind A.get?) = true := by
      rw [hb]
      simpa [jsTruthyKey] using htr
    simp only [resolveProgramId, resolveFirstFour, h1, hk, Bool.false_eq_true,
      if_false, if_true, if_neg h2, hb, Option.map_some]
    simp [jsTruthyKey, htr]
  · intro hf t hpt hne
    unfold resolveProgramId
    rw [hf]
    simp [jsTruthyStr, hpt, hne]
  · intro hf ht
    unfold resolveProgramId
    rw [hf]
    simp [ht]

/-- C5: every classification the code produces lies in the fixed tag
vocabulary (with the token tag spelled 'spl-token' and `multi-N` carrying the
count N ≥ 2), and a single-instruction transaction on the SPL token program
receives the vocabulary's token tag. -/
theorem c5_classification :
    (∀ (sig : String) (p : RawTx) (c : Canonical),
        decompileToTS sig p = some c → inTagVocabulary c.kind) ∧
      ∃ c, decompileToTS "s" exTxC5 = some c ∧ c.kind = "spl-token" := by
  constructor
  · intro sig p c h
    rw [decompileToTS_some_eq h]
    exact kindOf_inTagVocabulary _
  · exact ⟨_, rfl, rfl⟩

/-- C6: within the retry budget (attempts 1..MAX_RETRIES), the deterministic
backoff applied after a rate-limited failure, BASE·3^n, strictly exceeds the
backoff applied after any other network failure at the same attempt,
BASE·2^n, for BASE = 1000 ms. -/
theorem c6_backoff_growth (n : Nat) (h1 : 1 ≤ n) (_h2 : n ≤ MAX_RETRIES) :
    otherBackoff n < rateLimitedBackoff n := by
  have h : 2 ^ n < 3 ^ n := Nat.pow_lt_pow_left (by omega) (by omega)
  unfold otherBackoff rateLimitedBackoff BASE_BACKOFF_MS
  omega

/-- C6 witness: the strict ordering at attempt 3. -/
theorem c6_backoff_growth_witness : otherBackoff 3 < rateLimitedBackoff 3 :=
  c6_backoff_growth 3 (by decide) (by decide)

/-- C7: resume correctness of the batch orchestrator on the literal inputs —
from the identifier list [a,b,c,d] with resume point c, exactly [c,d] is
processed in that order; with the absent resume point z the run fails with
StartSignatureNotFound and processes no identifier at all. -/
theorem c7_resume :
    resumeSigs ["a", "b", "c", "d"] (some "c") = Except.ok ["c", "d"] ∧
      resumeSigs ["a", "b", "c", "d"] (some "z") =
        Except.error RunError.StartSignatureNotFound ∧
      processedIds ["a", "b", "c", "d"] (some "z") = [] := by
  exact ⟨rfl, rfl, rfl⟩

/-- C8: for an identifier present in the cache, the fetch client returns the
cached transaction immediately with zero endpoint acquisitions, zero RPC
requests and zero backoff sleep. -/
theorem c8_cache_hit (cache : String → Option RawTx) (net : Nat → AttemptOutcome)
    (jitter : Nat → Nat) (sig : String) (r : RawTx) (h : cache sig = some r) :
    fetchParsedTx cache net jitter sig = ⟨some r, 0, 0, 0⟩ := by
  unfold fetchParsedTx
  rw [h]

/-- C8 witness: the cache hit at the concrete one-entry cache. -/
theorem c8_cache_hit_witness :
    fetchParsedTx exCache (fun _ => AttemptOutcome.bothEmpty) (fun _ => 7) "sigX" =
      ⟨some exTxC5, 0, 0, 0⟩ :=
  c8_cache_hit exCache (fun _ => AttemptOutcome.bothEmpty) (fun _ => 7) "sigX"
    exTxC5 rfl

/-- C9: normalization is deterministic and idempotent — run in any two
environments (wall clock, random generator), the normalizer produces the
same canonical transaction, and two runs on the same payload agree. -/
theorem c9_deterministic :
    ∀ (e1 e2 : Env) (sig : String) (p : RawTx),
      decompileInEnv e1 sig p = decompileInEnv e2 sig p ∧
        decompileToTS sig p = decompileToTS sig p :=
  fun _ _ _ _ => ⟨rfl, rfl⟩

/-- C10 counterexample: the two normalizer variants disagree. On the raw
transaction referencing account index 3 under the 2/1/1 header over 5 keys,
the current variant marks it non-writable and the older one writable (its
threshold adds numRequiredSignatures); and an instruction no strategy
resolves is dropped by the current variant but kept as 'unknown' by the
older one. -/
theorem c10_counterexample :
    decompileToTS "s" exTxC10a ≠ decompileToTS_v0 "s" exTxC10a ∧
      (decompileToTS "s" exTxC10a).map writableMatrix = some [[false]] ∧
      (decompileToTS_v0 "s" exTxC10a).map writableMatrix = some [[true]] ∧
      (decompileToTS "s" exTxC10b).map programIdList = some [] ∧
      (decompileToTS_v0 "s" exTxC10b).map programIdList = some ["unknown"] := by
  have hA : (decompileToTS "s" exTxC10a).map writableMatrix = some [[false]] := rfl
  have hB : (decompileToTS_v0 "s" exTxC10a).map writableMatrix = some [[true]] := rfl
  refine ⟨fun h => ?_, hA, hB, rfl, rfl⟩
  rw [h, hB] at hA
  exact absurd hA (by decide)

/-- C10 amended: the variants agree only one-sidedly — whenever the current
variant resolves a program id the older one resolves the same id (they part
ways exactly where the current variant drops the instruction and the older
one falls back to 'unknown'), and every account the current variant marks
writable the older one marks writable too (its threshold is larger by
numRequiredSignatures); the converses fail, as the counterexample shows. -/
theorem c10_amended :
    (∀ (A : List JsKey) (i : RawInstr) (p : String),
        resolveProgramId A i = some p → resolveProgramId_v0 A i = p) ∧
      ∀ (A : List JsKey) (hdr : Option Header) (a : Nat),
        (rawRoles A hdr a).2 = true → (rawRoles_v0 A hdr a).2 = true := by
  constructor
  · intro A i p h
    unfold resolveProgramId at h
    unfold resolveProgramId_v0
    cases hf : resolveFirstFour A i with
    | some q =>
      rw [hf] at h
      simpa using h
    | none =>
      rw [hf] at h
      by_cases ht : jsTruthyStr i.program
      · replace h : i.program = some p := by simpa [ht] using h
        have hne : p ≠ "" := by
          rw [h] at ht
          simpa [jsTruthyStr] using ht
        simp [h, hne]
      · exfalso
        simp [ht] at h
  · intro A hdr a h
    simp only [rawRoles, decide_eq_true_eq] at h
    simp only [rawRoles_v0, decide_eq_true_eq]
    omega

end SolTx
